import Mathlib

/-!
Verification of the Kampai peer-to-peer encrypted messaging client
(`src/kampai.py`) against its natural-language specification.

Bytes are modelled as `Nat` (values below 256 where it matters) and byte
strings as `List Nat`.  Host addresses are opaque identifiers modelled as
`Nat`; the client never inspects their contents.  The PyNaCl cryptographic
primitives (`PrivateKey`, `PublicKey`, `Box`) are an external library and are
modelled from the spec's SecureChannel contract; everything else is translated
directly from the Python source.
-/

namespace Kampai

/-- The literal handshake tag `b"kampai_peer_establish:"` from
`src/kampai.py` lines 110 and 129, as its ASCII byte values. -/
def establishTag : List Nat :=
  [107, 97, 109, 112, 97, 105, 95, 112, 101, 101, 114, 95,
   101, 115, 116, 97, 98, 108, 105, 115, 104, 58]

/-- ASCII whitespace as recognised by Python `bytes.strip()`:
space, tab, newline, carriage return, vertical tab, form feed. -/
def isPyWhitespace (b : Nat) : Bool :=
  b == 32 || b == 9 || b == 10 || b == 13 || b == 11 || b == 12

/-- Python `bytes.strip()`: remove ASCII whitespace from both ends
(`src/kampai.py` line 127, `sdata = data.strip()`). -/
def pyStrip (l : List Nat) : List Nat :=
  ((l.dropWhile isPyWhitespace).reverse.dropWhile isPyWhitespace).reverse

/-- Python `sdata.startswith(b"kampai_peer_establish:")`
(`src/kampai.py` line 129). -/
def startsWithTag (l : List Nat) : Bool :=
  l.take establishTag.length == establishTag

/-- Python `sdata[-32:]` (`src/kampai.py` line 130): the trailing
`min(32, len)` bytes. -/
def extractKey (sdata : List Nat) : List Nat :=
  sdata.drop (sdata.length - 32)

/-- Modelled from the spec: PyNaCl `PublicKey(public_key=key)` (external
library, not in `src/`) requires exactly 32 key bytes and raises an
exception otherwise; `none` models the raised exception. -/
def mkPublicKey (key : List Nat) : Option (List Nat) :=
  if key.length = 32 then some key else none

/-- Modelled from the spec: derivation of the 32-byte public key from a
secret key (`self_skey.public_key`, curve25519 in the external library),
idealised as an injective byte map. -/
def publicKeyOf (sk : List Nat) : List Nat :=
  sk.map (fun b => (b + 1) % 256)

/-- Modelled from the spec: the opaque shared key material of
`Box(self_skey, peer_pkey)`, derived from the own secret key and the peer
public key. -/
def mkBox (sk pk : List Nat) : List Nat :=
  sk ++ pk

/-- NaCl `Box` nonces are 24 bytes. -/
def nonceLen : Nat := 24

/-- Modelled from the spec: `Box.encrypt` (external library) generates a
fresh nonce per call (passed in explicitly here), binds it to the output and
authenticates the plaintext under the shared key material.  The idealised
ciphertext embeds the shared material in place of the MAC. -/
def boxEncrypt (box nonce m : List Nat) : List Nat :=
  nonce ++ box ++ m

/-- Modelled from the spec: `Box.decrypt` (external library) recovers the
plaintext of a ciphertext produced under the matching channel and fails
(`none`, modelling `AuthenticationFailure`) otherwise. -/
def boxDecrypt (box c : List Nat) : Option (List Nat) :=
  if (c.drop nonceLen).take box.length = box then
    some (c.drop (nonceLen + box.length))
  else
    none

/-- UTF-8 encoding of one Unicode code point (Python `str.encode("utf-8")`
acts per code point). -/
def utf8EncodeChar (c : Nat) : List Nat :=
  if c < 0x80 then [c]
  else if c < 0x800 then [0xC0 + c / 64, 0x80 + c % 64]
  else if c < 0x10000 then
    [0xE0 + c / 4096, 0x80 + (c / 64) % 64, 0x80 + c % 64]
  else
    [0xF0 + c / 262144, 0x80 + (c / 4096) % 64, 0x80 + (c / 64) % 64,
     0x80 + c % 64]

/-- Python `message.encode("utf-8")` (`src/kampai.py` line 161): a text
message is a list of Unicode code points. -/
def utf8Encode (s : List Nat) : List Nat :=
  (s.map utf8EncodeChar).flatten

/-- A UTF-8 continuation byte (`10xxxxxx`). -/
def isCont (b : Nat) : Bool :=
  0x80 ≤ b && b < 0xC0

/-- Python `bytes.decode("utf-8")` (`src/kampai.py` line 179): strict UTF-8
decoding to code points, rejecting truncated sequences, overlong encodings,
surrogates and values above U+10FFFF; `none` models the raised
`UnicodeDecodeError`. -/
def utf8Decode : List Nat → Option (List Nat)
  | [] => some []
  | b :: rest =>
    if b < 0x80 then
      (utf8Decode rest).map (fun s => b :: s)
    else if b < 0xC2 then
      none
    else if b < 0xE0 then
      match rest with
      | b1 :: rest2 =>
        if isCont b1 then
          (utf8Decode rest2).map (fun s => ((b - 0xC0) * 64 + (b1 - 0x80)) :: s)
        else none
      | [] => none
    else if b < 0xF0 then
      match rest with
      | b1 :: b2 :: rest2 =>
        if isCont b1 && isCont b2 then
          let c := (b - 0xE0) * 4096 + (b1 - 0x80) * 64 + (b2 - 0x80)
          if c < 0x800 ∨ (0xD800 ≤ c ∧ c < 0xE000) then none
          else (utf8Decode rest2).map (fun s => c :: s)
        else none
      | _ => none
    else if b < 0xF5 then
      match rest with
      | b1 :: b2 :: b3 :: rest2 =>
        if isCont b1 && isCont b2 && isCont b3 then
          let c := (b - 0xF0) * 262144 + (b1 - 0x80) * 4096 +
                   (b2 - 0x80) * 64 + (b3 - 0x80)
          if c < 0x10000 ∨ 0x110000 ≤ c then none
          else (utf8Decode rest2).map (fun s => c :: s)
        else none
      | _ => none
    else none

/-- The `Behaviour` dataclass of `src/kampai.py` (lines 43-64).  Hosts are
opaque identifiers. -/
structure Behaviour where
  creator : Bool := true
  targetHost : Nat := 0
  targetPort : Nat := 450000
  clientHost : Nat := 0
  clientPort : Nat := 450000
deriving DecidableEq

/-- An incoming UDP datagram as delivered by `sock.recvfrom`: sender
address and payload bytes. -/
structure Datagram where
  senderHost : Nat
  senderPort : Nat
  payload : List Nat
deriving DecidableEq

/-- The peer descriptor: `peer_host`, `peer_port`, `peer_pkey` of `Client`
(`src/kampai.py` lines 132-135). -/
structure Peer where
  host : Nat
  port : Nat
  pkey : List Nat
deriving DecidableEq

/-- Observable outputs of the client: a datagram transmission
(`sock.sendto`) or text displayed to the user (`stdout.write`). -/
inductive Output
  | send (toHost toPort : Nat) (payload : List Nat)
  | display (text : List Nat)
deriving DecidableEq

/-- Outcome of processing one datagram in the handshake wait loop
(`src/kampai.py` lines 125-153). -/
inductive HsResult
  | ignored
  | errored
  | established (peer : Peer) (box : List Nat) (out : List Output)
deriving DecidableEq

/-- One iteration of the handshake wait loop body (`src/kampai.py` lines
126-153): strip the datagram, test the tag, extract the trailing 32 bytes
as the peer key, store the peer descriptor, build the box and transmit the
tag plus the own public key back to the sender.  `errored` models the
uncaught exception raised by `PublicKey` on a key of the wrong length. -/
def hsStep (skey : List Nat) (d : Datagram) : HsResult :=
  let sdata := pyStrip d.payload
  if startsWithTag sdata then
    match mkPublicKey (extractKey sdata) with
    | none => .errored
    | some key =>
      .established ⟨d.senderHost, d.senderPort, key⟩ (mkBox skey key)
        [.send d.senderHost d.senderPort (establishTag ++ publicKeyOf skey)]
  else
    .ignored

/-- The datagram transmissions performed by one handshake wait iteration. -/
def hsOutputs : HsResult → List Output
  | .established _ _ out => out
  | _ => []

/-- Outcome of the whole handshake wait loop over a finite sequence of
incoming datagrams. -/
inductive HsLoopResult
  | stillWaiting
  | crashed
  | done (peer : Peer) (box : List Nat) (out : List Output)
      (rest : List Datagram)
deriving DecidableEq

/-- The handshake wait loop (`while waiting:` of `src/kampai.py` lines
123-153) run over a finite sequence of incoming datagrams: the loop ends at
the first accepted datagram (`waiting = False`), leaving the remaining
datagrams unconsumed; an uncaught exception crashes the process. -/
def handshakeLoop (skey : List Nat) : List Datagram → HsLoopResult
  | [] => .stillWaiting
  | d :: ds =>
    match hsStep skey d with
    | .ignored => handshakeLoop skey ds
    | .errored => .crashed
    | .established p b o => .done p b o ds

/-- The transmissions of `Client.__init__` before the wait loop
(`src/kampai.py` lines 108-121): a joiner sends the tag plus its own public
key to the target address; a creator sends nothing. -/
def initOutputs (behaviour : Behaviour) (skey : List Nat) : List Output :=
  if behaviour.creator then []
  else [.send behaviour.targetHost behaviour.targetPort
          (establishTag ++ publicKeyOf skey)]

/-- All transmissions of `Client.__init__` over a finite sequence of
incoming datagrams: the pre-loop transmission followed by the wait loop's
transmissions. -/
def clientInitOutputs (behaviour : Behaviour) (skey : List Nat)
    (ds : List Datagram) : List Output :=
  initOutputs behaviour skey ++
    match handshakeLoop skey ds with
    | .done _ _ out _ => out
    | _ => []

/-- One iteration of the receive loop body of `Client.run`
(`src/kampai.py` lines 174-186): decrypt the datagram, decode the result as
UTF-8 and display it; any exception (authentication failure or invalid
UTF-8) is caught and the datagram is discarded. -/
def recvStep (box : List Nat) (c : List Nat) : List Output :=
  match boxDecrypt box c with
  | none => []
  | some pt =>
    match utf8Decode pt with
    | none => []
    | some text => [.display text]

/-- One iteration of the send loop body of `Client.get_input`
(`src/kampai.py` lines 157-168): encode the message as UTF-8, encrypt it
and transmit it to the peer address. -/
def sendStep (box : List Nat) (nonce : List Nat) (peer : Peer)
    (msg : List Nat) : List Output :=
  [.send peer.host peer.port (boxEncrypt box nonce (utf8Encode msg))]

/-- The client's phase: still in the handshake wait, or established with an
immutable peer descriptor and box. -/
inductive Phase
  | awaiting
  | established (peer : Peer) (box : List Nat)
deriving DecidableEq

/-- An external event the client reacts to: an incoming datagram, or a line
of local user input (paired with the fresh nonce the library would draw). -/
inductive Event
  | recv (d : Datagram)
  | userInput (nonce : List Nat) (msg : List Nat)
deriving DecidableEq

/-- One step of the whole client.  In the awaiting phase only datagrams are
processed (the input thread starts after the handshake, `src/kampai.py`
lines 171-172); in the established phase a datagram runs the receive loop
body and user input runs the send loop body.  `none` models an uncaught
exception terminating the process. -/
def clientStep (skey : List Nat) (ph : Phase) (e : Event) :
    Option (Phase × List Output) :=
  match ph, e with
  | .awaiting, .recv d =>
    match hsStep skey d with
    | .ignored => some (.awaiting, [])
    | .errored => none
    | .established p b o => some (.established p b, o)
  | .awaiting, .userInput _ _ => some (.awaiting, [])
  | .established p b, .recv d =>
    some (.established p b, recvStep b d.payload)
  | .established p b, .userInput nonce msg =>
    some (.established p b, sendStep b nonce ⟨p.host, p.port, p.pkey⟩ msg)

/-- Run the client over a finite sequence of events, collecting outputs;
`none` models the process having terminated on an uncaught exception. -/
def clientRun (skey : List Nat) (ph : Phase) :
    List Event → Option (Phase × List Output)
  | [] => some (ph, [])
  | e :: es =>
    match clientStep skey ph e with
    | none => none
    | some (ph2, out) =>
      match clientRun skey ph2 es with
      | none => none
      | some (ph3, out2) => some (ph3, out ++ out2)

/-- Sample 32-byte secret key for concrete instantiations. -/
def sampleSkey : List Nat := List.replicate 32 5

/-- Sample 32-byte peer public key for concrete instantiations. -/
def sampleKey : List Nat := List.replicate 32 7

/-- Sample well-formed establish datagram from address (7, 45001). -/
def sampleDatagram : Datagram := ⟨7, 45001, establishTag ++ sampleKey⟩

lemma extractKey_length (l : List Nat) (h : 32 ≤ l.length) :
    (extractKey l).length = 32 := by
  simp only [extractKey, List.length_drop]
  exact Nat.sub_sub_self h

lemma hsStep_of_tag (skey : List Nat) (d : Datagram)
    (htag : startsWithTag (pyStrip d.payload) = true)
    (hlen : (extractKey (pyStrip d.payload)).length = 32) :
    hsStep skey d =
      .established ⟨d.senderHost, d.senderPort, extractKey (pyStrip d.payload)⟩
        (mkBox skey (extractKey (pyStrip d.payload)))
        [.send d.senderHost d.senderPort (establishTag ++ publicKeyOf skey)] := by
  simp [hsStep, mkPublicKey, htag, hlen]

lemma hsStep_of_tag_short (skey : List Nat) (d : Datagram)
    (htag : startsWithTag (pyStrip d.payload) = true)
    (hlen : (extractKey (pyStrip d.payload)).length ≠ 32) :
    hsStep skey d = .errored := by
  simp [hsStep, mkPublicKey, htag, hlen]

lemma hsStep_of_not_tag (skey : List Nat) (d : Datagram)
    (htag : startsWithTag (pyStrip d.payload) = false) :
    hsStep skey d = .ignored := by
  simp [hsStep, htag]

lemma hsStep_established_inv (skey : List Nat) (d : Datagram) (p : Peer)
    (b : List Nat) (o : List Output)
    (h : hsStep skey d = .established p b o) :
    startsWithTag (pyStrip d.payload) = true ∧
    (extractKey (pyStrip d.payload)).length = 32 ∧
    p = ⟨d.senderHost, d.senderPort, extractKey (pyStrip d.payload)⟩ ∧
    b = mkBox skey (extractKey (pyStrip d.payload)) ∧
    o = [.send d.senderHost d.senderPort (establishTag ++ publicKeyOf skey)] := by
  by_cases htag : startsWithTag (pyStrip d.payload)
  · by_cases hlen : (extractKey (pyStrip d.payload)).length = 32
    · rw [hsStep_of_tag skey d htag hlen] at h
      cases h
      exact ⟨htag, hlen, rfl, rfl, rfl⟩
    · rw [hsStep_of_tag_short skey d htag hlen] at h
      cases h
  · rw [hsStep_of_not_tag skey d (by simpa using htag)] at h
    cases h

lemma handshakeLoop_done_split (skey : List Nat) (ds : List Datagram)
    (p : Peer) (b : List Nat) (o : List Output) (rest : List Datagram)
    (h : handshakeLoop skey ds = .done p b o rest) :
    ∃ pre d, ds = pre ++ d :: rest ∧
      (∀ d2 ∈ pre, hsStep skey d2 = .ignored) ∧
      hsStep skey d = .established p b o := by
  induction ds with
  | nil => simp [handshakeLoop] at h
  | cons d ds ih =>
    rw [handshakeLoop] at h
    rcases hstep : hsStep skey d with _ | _ | ⟨p2, b2, o2⟩
    · rw [hstep] at h
      obtain ⟨pre, d2, hds, hpre, hstep2⟩ := ih h
      refine ⟨d :: pre, d2, by simp [hds], ?_, hstep2⟩
      intro d3 hd3
      rcases List.mem_cons.mp hd3 with h3 | h3
      · rw [h3]
        exact hstep
      · exact hpre d3 h3
    · rw [hstep] at h
      cases h
    · rw [hstep] at h
      cases h
      exact ⟨[], d, rfl, by simp, hstep⟩

lemma boxDecrypt_boxEncrypt (box nonce m : List Nat)
    (hn : nonce.length = nonceLen) :
    boxDecrypt box (boxEncrypt box nonce m) = some m := by
  unfold boxEncrypt boxDecrypt
  have h1 : (nonce ++ box ++ m).drop nonceLen = box ++ m := by
    rw [← hn, List.append_assoc]
    exact List.drop_left nonce (box ++ m)
  have h2 : (nonce ++ box ++ m).drop (nonceLen + box.length) = m := by
    rw [← hn, ← List.length_append nonce box]
    exact List.drop_left (nonce ++ box) m
  rw [h1, List.take_left, if_pos rfl, h2]

lemma hsStep_ignored_iff (skey : List Nat) (d : Datagram) :
    hsStep skey d = .ignored ↔ startsWithTag (pyStrip d.payload) = false := by
  constructor
  · intro h
    by_contra htag
    rw [Bool.not_eq_false] at htag
    by_cases hlen : (extractKey (pyStrip d.payload)).length = 32
    · rw [hsStep_of_tag skey d htag hlen] at h
      cases h
    · rw [hsStep_of_tag_short skey d htag hlen] at h
      cases h
  · exact hsStep_of_not_tag skey d

lemma hsStep_errored_iff (skey : List Nat) (d : Datagram) :
    hsStep skey d = .errored ↔
      startsWithTag (pyStrip d.payload) = true ∧
      (extractKey (pyStrip d.payload)).length ≠ 32 := by
  constructor
  · intro h
    by_cases htag : startsWithTag (pyStrip d.payload)
    · by_cases hlen : (extractKey (pyStrip d.payload)).length = 32
      · rw [hsStep_of_tag skey d htag hlen] at h
        cases h
      · exact ⟨htag, hlen⟩
    · rw [hsStep_of_not_tag skey d (by simpa using htag)] at h
      cases h
  · intro ⟨htag, hlen⟩
    exact hsStep_of_tag_short skey d htag hlen

lemma clientRun_established (skey : List Nat) (p : Peer) (b : List Nat)
    (events : List Event) :
    ∃ out, clientRun skey (.established p b) events =
      some (.established p b, out) := by
  induction events with
  | nil => exact ⟨[], rfl⟩
  | cons e es ih =>
    obtain ⟨out, hout⟩ := ih
    cases e with
    | recv d =>
      exact ⟨recvStep b d.payload ++ out, by simp [clientRun, clientStep, hout]⟩
    | userInput nonce msg =>
      exact ⟨sendStep b nonce ⟨p.host, p.port, p.pkey⟩ msg ++ out,
        by simp [clientRun, clientStep, hout]⟩

/-- Claim C1: for every byte string that is the UTF-8 encoding of a text
message, decrypting with a channel the ciphertext produced by encrypting it
with the same channel (the box derived from the same secret-key/public-key
pair) yields exactly the original bytes. -/
theorem C1_round_trip (sk pk nonce s m : List Nat) (hm : m = utf8Encode s)
    (hn : nonce.length = nonceLen) :
    boxDecrypt (mkBox sk pk) (boxEncrypt (mkBox sk pk) nonce m) = some m := by
  subst hm
  exact boxDecrypt_boxEncrypt (mkBox sk pk) nonce (utf8Encode s) hn

/-- Witness for C1 at a concrete channel, nonce and message. -/
theorem C1_round_trip_witness :
    boxDecrypt (mkBox sampleSkey sampleKey)
      (boxEncrypt (mkBox sampleSkey sampleKey) (List.replicate 24 3)
        (utf8Encode [104, 105])) = some (utf8Encode [104, 105]) :=
  C1_round_trip sampleSkey sampleKey (List.replicate 24 3) [104, 105]
    (utf8Encode [104, 105]) rfl rfl

/-- Counterexample to C2 as stated: a joiner (initiator), which already
sent its establish datagram to the target (9, 45000), transmits the tag
plus its public key a second time, to the sender address (7, 45001), upon
accepting a valid establish datagram: the acceptance branch of the wait
loop sends unconditionally, with no role check. -/
theorem C2_counterexample :
    clientInitOutputs ⟨false, 9, 45000, 0, 45000⟩ sampleSkey [sampleDatagram] =
      [Output.send 9 45000 (establishTag ++ publicKeyOf sampleSkey),
       Output.send 7 45001 (establishTag ++ publicKeyOf sampleSkey)] := by
  rfl

/-- Claim C2 (amended): when a valid establish datagram is accepted during
the handshake wait, the peer transmits the tag plus its own public key back
to the sender address regardless of its role; the initiator transmits
again at that point just as the responder does. -/
theorem C2_reply_regardless_of_role (behaviour : Behaviour) (skey : List Nat)
    (ds : List Datagram) (p : Peer) (b : List Nat) (o : List Output)
    (rest : List Datagram) (h : handshakeLoop skey ds = .done p b o rest) :
    clientInitOutputs behaviour skey ds =
      initOutputs behaviour skey ++
        [Output.send p.host p.port (establishTag ++ publicKeyOf skey)] := by
  obtain ⟨pre, d, hds, hpre, hstep⟩ :=
    handshakeLoop_done_split skey ds p b o rest h
  obtain ⟨htag, hlen, hp, hb, ho⟩ := hsStep_established_inv skey d p b o hstep
  unfold clientInitOutputs
  rw [h, ho, hp]

/-- Witness for C2 (amended) at a concrete joiner run. -/
theorem C2_reply_regardless_of_role_witness :
    clientInitOutputs ⟨false, 9, 45000, 0, 45000⟩ sampleSkey [sampleDatagram] =
      initOutputs ⟨false, 9, 45000, 0, 45000⟩ sampleSkey ++
        [Output.send 7 45001 (establishTag ++ publicKeyOf sampleSkey)] :=
  C2_reply_regardless_of_role ⟨false, 9, 45000, 0, 45000⟩ sampleSkey
    [sampleDatagram] ⟨7, 45001, sampleKey⟩ (mkBox sampleSkey sampleKey)
    [Output.send 7 45001 (establishTag ++ publicKeyOf sampleSkey)] [] rfl

/-- Claim C3: the code violates the claim.  A datagram consisting of the
bare tag (fewer than 10 bytes after the tag, so fewer than 32 stripped
bytes in total) reaches the PublicKey constructor with a short key and
raises an uncaught exception, terminating the process instead of being
ignored; and a datagram with 10 bytes after the tag is accepted with a
"key" that overlaps the tag itself instead of being ignored. -/
theorem C3_short_tagged_datagram_crashes :
    hsStep sampleSkey ⟨1, 2, establishTag⟩ = HsResult.errored ∧
    hsStep sampleSkey ⟨1, 2, establishTag ++ List.replicate 10 0⟩ =
      HsResult.established ⟨1, 2, establishTag ++ List.replicate 10 0⟩
        (mkBox sampleSkey (establishTag ++ List.replicate 10 0))
        [Output.send 1 2 (establishTag ++ publicKeyOf sampleSkey)] :=
  ⟨rfl, rfl⟩

/-- Counterexample to C4 as stated: a datagram whose raw bytes begin with a
space, then the tag and a 32-byte key, does not start with the literal tag
as received, yet it is accepted, because the tag test and the key
extraction run on the whitespace-stripped bytes. -/
theorem C4_counterexample :
    startsWithTag (32 :: (establishTag ++ sampleKey)) = false ∧
    hsStep sampleSkey ⟨1, 2, 32 :: (establishTag ++ sampleKey)⟩ =
      HsResult.established ⟨1, 2, sampleKey⟩ (mkBox sampleSkey sampleKey)
        [Output.send 1 2 (establishTag ++ publicKeyOf sampleSkey)] :=
  ⟨rfl, rfl⟩

/-- Claim C4 (amended): acceptance and key extraction operate on the
whitespace-stripped datagram bytes: a datagram whose stripped bytes are at
least 32 bytes long is accepted if and only if its stripped bytes start
with the literal tag, and on acceptance the stored peer key is exactly the
trailing 32 bytes of the stripped datagram. -/
theorem C4_stripped_accept (skey : List Nat) (d : Datagram)
    (hlen : 32 ≤ (pyStrip d.payload).length) :
    (startsWithTag (pyStrip d.payload) = true →
      hsStep skey d =
        HsResult.established
          ⟨d.senderHost, d.senderPort, extractKey (pyStrip d.payload)⟩
          (mkBox skey (extractKey (pyStrip d.payload)))
          [Output.send d.senderHost d.senderPort
            (establishTag ++ publicKeyOf skey)]) ∧
    (startsWithTag (pyStrip d.payload) = false →
      hsStep skey d = HsResult.ignored) := by
  constructor
  · intro htag
    exact hsStep_of_tag skey d htag (extractKey_length _ hlen)
  · exact hsStep_of_not_tag skey d

/-- Witness for C4 (amended) at a concrete well-formed datagram. -/
theorem C4_stripped_accept_witness :
    hsStep sampleSkey sampleDatagram =
      HsResult.established
        ⟨7, 45001, extractKey (pyStrip sampleDatagram.payload)⟩
        (mkBox sampleSkey (extractKey (pyStrip sampleDatagram.payload)))
        [Output.send 7 45001 (establishTag ++ publicKeyOf sampleSkey)] :=
  (C4_stripped_accept sampleSkey sampleDatagram (by decide)).1 rfl

/-- Claim C5: in the receive flow, a datagram whose decryption fails or
whose decrypted bytes are not valid UTF-8 is discarded, the loop continuing
in the same phase without terminating, and a datagram for which both
decryption and UTF-8 decoding succeed has its decoded text displayed. -/
theorem C5_receive_flow (skey box : List Nat) (p : Peer) (d : Datagram) :
    (boxDecrypt box d.payload = none → recvStep box d.payload = []) ∧
    (∀ pt, boxDecrypt box d.payload = some pt → utf8Decode pt = none →
      recvStep box d.payload = []) ∧
    (∀ pt text, boxDecrypt box d.payload = some pt →
      utf8Decode pt = some text →
      recvStep box d.payload = [Output.display text]) ∧
    clientStep skey (.established p box) (.recv d) =
      some (.established p box, recvStep box d.payload) := by
  refine ⟨?_, ?_, ?_, rfl⟩
  · intro hdec
    simp [recvStep, hdec]
  · intro pt hdec hutf
    simp [recvStep, hdec, hutf]
  · intro pt text hdec hutf
    simp [recvStep, hdec, hutf]

/-- Witness for C5 at a concrete successfully decrypted UTF-8 datagram. -/
theorem C5_receive_flow_witness :
    recvStep (mkBox sampleSkey sampleKey)
      (boxEncrypt (mkBox sampleSkey sampleKey) (List.replicate 24 3)
        [104, 105]) = [Output.display [104, 105]] :=
  (C5_receive_flow sampleSkey (mkBox sampleSkey sampleKey)
    ⟨7, 45001, sampleKey⟩
    ⟨0, 0, boxEncrypt (mkBox sampleSkey sampleKey) (List.replicate 24 3)
      [104, 105]⟩).2.2.1 [104, 105] [104, 105] rfl rfl

/-- Claim C6: a datagram received during the handshake wait that does not
carry the expected tag leaves the handshake state unchanged: it is ignored,
nothing is transmitted, and the wait over the remaining datagrams proceeds
exactly as if the datagram had never arrived. -/
theorem C6_untagged_leaves_state (skey : List Nat) (d : Datagram)
    (ds : List Datagram) (htag : startsWithTag (pyStrip d.payload) = false) :
    hsStep skey d = HsResult.ignored ∧
    hsOutputs (hsStep skey d) = [] ∧
    handshakeLoop skey (d :: ds) = handshakeLoop skey ds := by
  have h1 := hsStep_of_not_tag skey d htag
  refine ⟨h1, ?_, ?_⟩
  · rw [h1]
    rfl
  · simp [handshakeLoop, h1]

/-- Witness for C6 at a concrete untagged datagram. -/
theorem C6_untagged_leaves_state_witness :
    hsStep sampleSkey ⟨1, 2, [99]⟩ = HsResult.ignored ∧
    hsOutputs (hsStep sampleSkey ⟨1, 2, [99]⟩) = [] ∧
    handshakeLoop sampleSkey [⟨1, 2, [99]⟩] = handshakeLoop sampleSkey [] :=
  C6_untagged_leaves_state sampleSkey ⟨1, 2, [99]⟩ [] rfl

/-- Claim C7: at session start a joiner (initiator) transmits exactly one
datagram, the tag followed by its 32-byte public key, to the target
address, while a creator (responder) transmits nothing; both then enter the
handshake receive wait. -/
theorem C7_initial_transmissions (behaviour : Behaviour) (skey : List Nat) :
    (behaviour.creator = false →
      initOutputs behaviour skey =
        [Output.send behaviour.targetHost behaviour.targetPort
          (establishTag ++ publicKeyOf skey)]) ∧
    (behaviour.creator = true → initOutputs behaviour skey = []) ∧
    handshakeLoop skey [] = HsLoopResult.stillWaiting := by
  refine ⟨?_, ?_, rfl⟩ <;> intro h <;> simp [initOutputs, h]

/-- Witness for C7 at a concrete joiner configuration. -/
theorem C7_initial_transmissions_witness :
    initOutputs ⟨false, 9, 45000, 0, 45000⟩ sampleSkey =
      [Output.send 9 45000 (establishTag ++ publicKeyOf sampleSkey)] :=
  (C7_initial_transmissions ⟨false, 9, 45000, 0, 45000⟩ sampleSkey).1 rfl

/-- Claim C8: the peer descriptor and box are set exactly once, by the
first accepted handshake datagram (every earlier datagram having been
ignored, and the wait loop ending there), and from the established phase on
no sequence of events ever changes the peer or the box or constructs a new
channel: every run from an established phase stays in exactly that phase. -/
theorem C8_establish_once (skey : List Nat) (ds : List Datagram) (p : Peer)
    (b : List Nat) (o : List Output) (rest : List Datagram)
    (h : handshakeLoop skey ds = .done p b o rest) :
    (∃ pre d, ds = pre ++ d :: rest ∧
      (∀ d2 ∈ pre, hsStep skey d2 = HsResult.ignored) ∧
      hsStep skey d = HsResult.established p b o) ∧
    ∀ events, ∃ out2, clientRun skey (.established p b) events =
      some (.established p b, out2) :=
  ⟨handshakeLoop_done_split skey ds p b o rest h,
    fun events => clientRun_established skey p b events⟩

/-- Witness for C8 at a concrete handshake run. -/
theorem C8_establish_once_witness :
    (∃ pre d, [sampleDatagram] = pre ++ d :: ([] : List Datagram) ∧
      (∀ d2 ∈ pre, hsStep sampleSkey d2 = HsResult.ignored) ∧
      hsStep sampleSkey d =
        HsResult.established ⟨7, 45001, sampleKey⟩
          (mkBox sampleSkey sampleKey)
          [Output.send 7 45001 (establishTag ++ publicKeyOf sampleSkey)]) ∧
    ∀ events, ∃ out2,
      clientRun sampleSkey
        (.established ⟨7, 45001, sampleKey⟩ (mkBox sampleSkey sampleKey))
        events =
      some (.established ⟨7, 45001, sampleKey⟩ (mkBox sampleSkey sampleKey),
        out2) :=
  C8_establish_once sampleSkey [sampleDatagram] ⟨7, 45001, sampleKey⟩
    (mkBox sampleSkey sampleKey)
    [Output.send 7 45001 (establishTag ++ publicKeyOf sampleSkey)] [] rfl

/-- Claim C9: handshake acceptance is independent of the sender identity:
for any two sender addresses the same payload is classified the same way,
an accepted payload yields the same key and box with only the stored
address and reply destination differing, and whichever sender's well-formed
datagram comes first becomes the established peer, with no check against an
intended target. -/
theorem C9_sender_blind (skey payload : List Nat) (h1 p1 h2 p2 : Nat) :
    (hsStep skey ⟨h1, p1, payload⟩ = HsResult.ignored ↔
      hsStep skey ⟨h2, p2, payload⟩ = HsResult.ignored) ∧
    (hsStep skey ⟨h1, p1, payload⟩ = HsResult.errored ↔
      hsStep skey ⟨h2, p2, payload⟩ = HsResult.errored) ∧
    (∀ key b o, hsStep skey ⟨h1, p1, payload⟩ =
        HsResult.established ⟨h1, p1, key⟩ b o →
      hsStep skey ⟨h2, p2, payload⟩ =
        HsResult.established ⟨h2, p2, key⟩ b
          [Output.send h2 p2 (establishTag ++ publicKeyOf skey)]) ∧
    (∀ ds p b o rest, handshakeLoop skey ds = .done p b o rest →
      ∃ pre d, ds = pre ++ d :: rest ∧ p.host = d.senderHost ∧
        p.port = d.senderPort ∧ p.pkey = extractKey (pyStrip d.payload)) := by
  refine ⟨?_, ?_, ?_, ?_⟩
  · rw [hsStep_ignored_iff, hsStep_ignored_iff]
  · rw [hsStep_errored_iff, hsStep_errored_iff]
  · intro key b o hstep
    obtain ⟨htag, hlen, hp, hb, ho⟩ :=
      hsStep_established_inv skey ⟨h1, p1, payload⟩ ⟨h1, p1, key⟩ b o hstep
    obtain ⟨-, -, hkey⟩ := Peer.mk.injEq .. ▸ hp
    rw [hb, hkey]
    exact hsStep_of_tag skey ⟨h2, p2, payload⟩ htag hlen
  · intro ds p b o rest h
    obtain ⟨pre, d, hds, hpre, hstep⟩ :=
      handshakeLoop_done_split skey ds p b o rest h
    obtain ⟨htag, hlen, hp, hb, ho⟩ := hsStep_established_inv skey d p b o hstep
    exact ⟨pre, d, hds, by rw [hp], by rw [hp], by rw [hp]⟩

/-- Witness for C9: the accepted-payload implication moved from sender
(1, 2) to sender (3, 4). -/
theorem C9_sender_blind_witness :
    hsStep sampleSkey ⟨3, 4, establishTag ++ sampleKey⟩ =
      HsResult.established ⟨3, 4, sampleKey⟩ (mkBox sampleSkey sampleKey)
        [Output.send 3 4 (establishTag ++ publicKeyOf sampleSkey)] :=
  (C9_sender_blind sampleSkey (establishTag ++ sampleKey) 1 2 3 4).2.2.1
    sampleKey (mkBox sampleSkey sampleKey)
    [Output.send 1 2 (establishTag ++ publicKeyOf sampleSkey)] rfl

/-- Claim C10: after establishment the receive flow does not filter by
sender address: a datagram with the same payload from any two senders is
processed identically with the single session box, and a datagram is
dropped exactly when decryption fails or the decrypted bytes are not valid
UTF-8, never because of its origin. -/
theorem C10_receive_sender_blind (skey : List Nat) (p : Peer)
    (b : List Nat) (h1 p1 h2 p2 : Nat) (payload : List Nat) :
    clientStep skey (.established p b) (.recv ⟨h1, p1, payload⟩) =
      clientStep skey (.established p b) (.recv ⟨h2, p2, payload⟩) ∧
    (recvStep b payload = [] ↔ boxDecrypt b payload = none ∨
      ∃ pt, boxDecrypt b payload = some pt ∧ utf8Decode pt = none) := by
  refine ⟨rfl, ?_, ?_⟩
  · intro hempty
    rcases hdec : boxDecrypt b payload with _ | pt
    · exact Or.inl rfl
    · rcases hutf : utf8Decode pt with _ | text
      · exact Or.inr ⟨pt, rfl, hutf⟩
      · simp [recvStep, hdec, hutf] at hempty
  · intro hcase
    rcases hcase with hdec | ⟨pt, hdec, hutf⟩
    · simp [recvStep, hdec]
    · simp [recvStep, hdec, hutf]

/-- Witness for C10: two different senders of the same undecryptable
payload are processed identically. -/
theorem C10_receive_sender_blind_witness :
    clientStep sampleSkey
      (.established ⟨7, 45001, sampleKey⟩ (mkBox sampleSkey sampleKey))
      (.recv ⟨1, 2, [9, 9, 9]⟩) =
    clientStep sampleSkey
      (.established ⟨7, 45001, sampleKey⟩ (mkBox sampleSkey sampleKey))
      (.recv ⟨3, 4, [9, 9, 9]⟩) :=
  (C10_receive_sender_blind sampleSkey ⟨7, 45001, sampleKey⟩
    (mkBox sampleSkey sampleKey) 1 2 3 4 [9, 9, 9]).1

end Kampai
